import Mathlib

/-!
Verification of the animation/state/caching core of a scene-composition
engine for RGBA pixel matrices.  The definitions below are a shallow
embedding of the corresponding source functions; machine `uint8` values
are modelled as `ℕ` with explicit truncation, IEEE floats as `ℚ`
(every arithmetic step exercised by the theorems is exact in `ℚ` and
agrees with the `float64` evaluation of the source), Python dicts as
association lists preserving insertion order, and fallible code returns
`Option` (`none` models an uncaught Python exception).
-/

namespace SceneComposer

/-! ## Pixel buffer (`render_buffer.py`) -/

/-- An RGBA pixel; each channel is a `uint8` value in `0..255`. -/
structure Pixel where
  r : ℕ
  g : ℕ
  b : ℕ
  a : ℕ
deriving DecidableEq, Repr

/-- `astype(np.uint8)` applied to a nonnegative in-range float value:
truncation toward zero (for the nonnegative values produced by alpha
compositing with opacity in `[0,1]`, truncation coincides with `⌊·⌋`). -/
def toU8 (q : ℚ) : ℕ :=
  (⌊q⌋).toNat % 256

/-- Per-pixel alpha compositing performed by `RenderBuffer.blit`
(render_buffer.py lines 67-83), for one source pixel over one
destination pixel:
`src_alpha = src.a / 255 * opacity`,
`out.rgb = dst.rgb * (1 - src_alpha) + src.rgb * src_alpha`,
`out.a = src_alpha + dst.a / 255 * (1 - src_alpha)`,
each channel written back through `astype(np.uint8)` (the alpha channel
after scaling by 255). -/
def blit_pixel (src dst : Pixel) (opacity : ℚ) : Pixel :=
  let srcAlpha : ℚ := (src.a : ℚ) / 255 * opacity
  let dstAlpha : ℚ := (dst.a : ℚ) / 255
  { r := toU8 ((dst.r : ℚ) * (1 - srcAlpha) + (src.r : ℚ) * srcAlpha)
    g := toU8 ((dst.g : ℚ) * (1 - srcAlpha) + (src.g : ℚ) * srcAlpha)
    b := toU8 ((dst.b : ℚ) * (1 - srcAlpha) + (src.b : ℚ) * srcAlpha)
    a := toU8 ((srcAlpha + dstAlpha * (1 - srcAlpha)) * 255) }

/-- A color argument to `set_pixel`: either `(r, g, b)` (alpha kept) or
`(r, g, b, a)`. -/
inductive ColorArg where
  | rgb (r g b : ℕ)
  | rgba (r g b a : ℕ)
deriving DecidableEq, Repr

/-- A `RenderBuffer`: fixed width/height and a dense grid of RGBA
pixels, addressed as `data (x, y)`. -/
structure RenderBufferM where
  width : ℕ
  height : ℕ
  data : ℕ × ℕ → Pixel

/-- `RenderBuffer.get_pixel` (render_buffer.py lines 28-32): bounds
check, out-of-bounds reads return transparent black `(0,0,0,0)`.
Coordinates are Python ints, hence `ℤ`. -/
def get_pixel (buf : RenderBufferM) (x y : ℤ) : Pixel :=
  if 0 ≤ x ∧ x < (buf.width : ℤ) ∧ 0 ≤ y ∧ y < (buf.height : ℤ) then
    buf.data (x.toNat, y.toNat)
  else
    ⟨0, 0, 0, 0⟩

/-- `RenderBuffer.set_pixel` (render_buffer.py lines 19-26): bounds
check, out-of-bounds writes are no-ops; a 3-channel color keeps the
existing alpha. -/
def set_pixel (buf : RenderBufferM) (x y : ℤ) (color : ColorArg) : RenderBufferM :=
  if 0 ≤ x ∧ x < (buf.width : ℤ) ∧ 0 ≤ y ∧ y < (buf.height : ℤ) then
    { buf with data := fun p =>
        if p = (x.toNat, y.toNat) then
          match color with
          | .rgb r g b => { r := r, g := g, b := b, a := (buf.data p).a }
          | .rgba r g b a => ⟨r, g, b, a⟩
        else buf.data p }
  else
    buf

/-! ## Component render timestamp (`component.py`, `Component.render`) -/

/-- The mutable fields of `Component` that `render` touches:
`_rendered_at` and `_last_state` (initially `0.0` and `None`).
The snapshot type `σ` stands for the state dict returned by
`compute_state`; Python `==` on it is structural equality. -/
structure RenderState (σ : Type) where
  rendered_at : ℚ
  last_state : Option σ

/-- The fresh `Component.__init__` render bookkeeping:
`_rendered_at = 0.0`, `_last_state = None`. -/
def RenderState.initial (σ : Type) : RenderState σ :=
  { rendered_at := 0, last_state := none }

/-- The timestamp/snapshot step of `Component.render` (component.py
lines 199-225, with the `DEBUG_RENDER` flag at its default `False`):
compute the state, and if it differs from `_last_state` set
`_rendered_at := time` and remember the state. -/
def componentRender {σ : Type} [DecidableEq σ] (compute : ℚ → σ)
    (rs : RenderState σ) (time : ℚ) : RenderState σ :=
  let state := compute time
  if some state = rs.last_state then rs
  else { rendered_at := time, last_state := some state }

/-! ## Per-instance render cache (`component.py`, `cache_with_dict`) -/

/-- Default `maxsize` of `cache_with_dict` (component.py line 25),
used by leaf components. -/
def cache_with_dict_default_maxsize : ℕ := 128

/-- `maxsize` of the `Scene._render_cached` cache
(scene.py line 172). -/
def scene_render_cache_maxsize : ℕ := 32

/-- The per-instance render cache: an insertion-ordered association
list from canonicalized state key to cached value (a Python dict
preserves insertion order; plain reads never reorder it). -/
abbrev Cache (κ β : Type) := List (κ × β)

/-- Dict membership test / lookup by key. -/
def cacheLookup {κ β : Type} [DecidableEq κ] (c : Cache κ β) (k : κ) : Option β :=
  (c.find? (fun p => p.1 = k)).map (·.2)

/-- One call through the `cache_with_dict` wrapper (component.py lines
44-62) with the cache already initialized: on a key miss, if the cache
is at capacity, `pop(next(iter(cache)))` removes the oldest-inserted
entry (the head), then the computed value is inserted at the end; on a
hit the cache is unchanged and the stored value returned.  `none`
models the `StopIteration` raised by popping from an empty
at-capacity cache (only possible with `maxsize = 0`). -/
def cacheStep {κ β : Type} [DecidableEq κ] (maxsize : ℕ) (f : κ → β)
    (c : Cache κ β) (k : κ) : Option (Cache κ β × β) :=
  match cacheLookup c k with
  | some v => some (c, v)
  | none =>
    let evicted? : Option (Cache κ β) :=
      if maxsize ≤ c.length then
        match c with
        | [] => none
        | _ :: t => some t
      else some c
    match evicted? with
    | none => none
    | some c' =>
      let v := f k
      some (c' ++ [(k, v)], v)

/-! ## Property bags (Python dicts of animatable values) -/

/-- A property bag / state dict: an insertion-ordered association list
from property name to numeric value (floats and ints both live in `ℚ`). -/
abbrev Bag := List (String × ℚ)

/-- Python `d.get(k)` on an association-list dict. -/
def dictGet {α : Type} (d : List (String × α)) (k : String) : Option α :=
  (d.find? (fun p => p.1 = k)).map (·.2)

/-- Python `d[k] = v` on an association-list dict (keys unique):
overwrite the existing binding in place (preserving its position),
otherwise append at the end. -/
def dictSet {α : Type} : List (String × α) → String → α → List (String × α)
  | [], k, v => [(k, v)]
  | (a, b) :: d, k, v =>
    if a = k then (k, v) :: d else (a, b) :: dictSet d k v

/-- Python `d.pop(k)` / `del d[k]`: remove the entry with key `k`. -/
def dictDel {α : Type} (d : List (String × α)) (k : String) : List (String × α) :=
  d.filter (fun p => ¬ p.1 = k)

/-- `state.get(param, 0)` (animation.py line 283): a parameter absent
from the bag has current value `0`. -/
def bagGet (bag : Bag) (k : String) : ℚ :=
  (dictGet bag k).getD 0

/-- Python `int(x)` on a float: truncation toward zero. -/
def pyInt (q : ℚ) : ℤ :=
  if 0 ≤ q then ⌊q⌋ else -⌊-q⌋

/-! ## `Animate` parameter resolution (`animation.py`, `Animate`) -/

/-- The eight parameter dictionaries of an `Animate`
(animation.py lines 232-239), each mapping parameter name to a value
(empty dicts for the ones not given). -/
structure AnimateParams where
  from_params : List (String × ℚ)
  from_params_rel : List (String × ℚ)
  to_params : List (String × ℚ)
  to_params_rel : List (String × ℚ)
  from_params_int : List (String × ℚ)
  from_params_rel_int : List (String × ℚ)
  to_params_int : List (String × ℚ)
  to_params_rel_int : List (String × ℚ)

/-- `Animate._int_params` (animation.py lines 242-247): the parameters
declared through any `_int` variant, to be truncated after
interpolation. -/
def AnimateParams.isIntParam (p : AnimateParams) (k : String) : Bool :=
  (p.from_params_int ++ p.from_params_rel_int ++ p.to_params_int ++ p.to_params_rel_int).any
    (fun q => q.1 = k)

/-- `all_params` of `Animate._resolve_params` (animation.py lines
268-277): every parameter named in any of the eight dicts (the Python
`set` iteration order does not affect the resolved result; we keep
first-occurrence order). -/
def AnimateParams.allParams (p : AnimateParams) : List String :=
  ((p.from_params ++ p.from_params_rel ++ p.to_params ++ p.to_params_rel ++
    p.from_params_int ++ p.from_params_rel_int ++ p.to_params_int ++
    p.to_params_rel_int).map (·.1)).dedup

/-- The `to` branch of `Animate._resolve_params` (animation.py lines
286-295): integer absolute, else integer relative to `current`, else
float absolute, else float relative to `current`, else `current`. -/
def resolveTo (p : AnimateParams) (k : String) (current : ℚ) : ℚ :=
  match dictGet p.to_params_int k with
  | some v => v
  | none =>
    match dictGet p.to_params_rel_int k with
    | some v => current + v
    | none =>
      match dictGet p.to_params k with
      | some v => v
      | none =>
        match dictGet p.to_params_rel k with
        | some v => current + v
        | none => current

/-- The `from` branch of `Animate._resolve_params` (animation.py lines
298-307): same precedence as `to`, but the relative variants offset
from the already-resolved `to` value `to_val`; the final fallback is
`current`. -/
def resolveFrom (p : AnimateParams) (k : String) (current to_val : ℚ) : ℚ :=
  match dictGet p.from_params_int k with
  | some v => v
  | none =>
    match dictGet p.from_params_rel_int k with
    | some v => to_val + v
    | none =>
      match dictGet p.from_params k with
      | some v => v
      | none =>
        match dictGet p.from_params_rel k with
        | some v => to_val + v
        | none => current

/-- `Animate._resolve_params` (animation.py lines 259-310) as a whole:
for each animated parameter, read the current bag value (default 0),
resolve `to` then `from`, and record `(param, from_val, to_val)`. -/
def resolveParams (p : AnimateParams) (bag : Bag) : List (String × ℚ × ℚ) :=
  p.allParams.map (fun k =>
    let current := bagGet bag k
    let to_val := resolveTo p k current
    (k, resolveFrom p k current to_val, to_val))

/-- `Animate._apply` (animation.py lines 312-332) given an
already-resolved parameter list: interpolate
`value = from + (to - from) * progress`, truncate to an integer when
the parameter was declared via an `_int` variant, and write the value
into the bag under the parameter's name. -/
def applyResolved (p : AnimateParams) (resolved : List (String × ℚ × ℚ))
    (bag : Bag) (progress : ℚ) : Bag :=
  resolved.foldl (fun b entry =>
    let value := entry.2.1 + (entry.2.2 - entry.2.1) * progress
    let value := if p.isIntParam entry.1 then ((pyInt value : ℤ) : ℚ) else value
    dictSet b entry.1 value) bag

/-! ## Animation objects (`animation.py`) -/

/-- An animation duration: a finite float (`ℚ`) or `float("inf")`
(used by `Loop` with `count=None`, animation.py line 820). -/
inductive Dur where
  | fin (q : ℚ)
  | inf
deriving DecidableEq, Repr

/-- Float addition restricted to durations (`inf` absorbs, matching
IEEE addition of positive infinities with finite values). -/
def Dur.add : Dur → Dur → Dur
  | .fin a, .fin b => .fin (a + b)
  | _, _ => .inf

/-- Float `max` on durations. -/
def Dur.max : Dur → Dur → Dur
  | .fin a, .fin b => .fin (Max.max a b)
  | _, _ => .inf

/-- Float multiplication of a duration by a count
(`animation.duration * count`, animation.py line 820; the IEEE corner
`inf * 0 = nan` is not representable and modelled as `inf`). -/
def Dur.mulNat : Dur → ℕ → Dur
  | .fin q, n => .fin (q * n)
  | .inf, _ => .inf

mutual
/-- An animation object together with its mutable runtime state.
Constructors carry the fields assigned in the corresponding
`__init__`/`update` methods:
`animate` = `Animate` (param dicts, target, duration, easing function,
cached `_resolved_from`/`_resolved_to` as one list, `completed`);
`seqA` = `Sequence` (children, `current_index`, target, duration,
`completed`); `parA` = `Parallel`; `loopA` = `Loop` (wrapped child,
`count`, `current_iteration`, target, duration, `completed`). -/
inductive Anim : Type where
  | animate (p : AnimateParams) (target : String) (duration : ℚ)
      (easing : ℚ → ℚ) (resolved : Option (List (String × ℚ × ℚ)))
      (completed : Bool)
  | seqA (anims : AList) (currentIndex : ℕ) (target : String)
      (duration : Dur) (completed : Bool)
  | parA (anims : AList) (target : String) (duration : Dur)
      (completed : Bool)
  | loopA (child : Anim) (count : Option ℕ) (currentIteration : ℤ)
      (target : String) (duration : Dur) (completed : Bool)

/-- A list of animation objects (the `animations` list of a
`Sequence`/`Parallel`). -/
inductive AList : Type where
  | nil
  | cons (a : Anim) (l : AList)
end

/-- `self.target` of an animation. -/
def Anim.target : Anim → String
  | .animate _ t _ _ _ _ => t
  | .seqA _ _ t _ _ => t
  | .parA _ t _ _ => t
  | .loopA _ _ _ t _ _ => t

/-- `self.duration` of an animation. -/
def Anim.duration : Anim → Dur
  | .animate _ _ d _ _ _ => .fin d
  | .seqA _ _ _ d _ => d
  | .parA _ _ d _ => d
  | .loopA _ _ _ _ d _ => d

/-- `self.completed` of an animation. -/
def Anim.completed : Anim → Bool
  | .animate _ _ _ _ _ c => c
  | .seqA _ _ _ _ c => c
  | .parA _ _ _ c => c
  | .loopA _ _ _ _ _ c => c

mutual
/-- `reset()`: the base class clears `completed`; `Animate.reset`
additionally clears the cached resolution (animation.py lines
253-257); `Sequence.reset` zeroes the index and resets all children
(lines 550-555); `Parallel.reset` resets all children;
`Loop.reset` zeroes the iteration and resets the wrapped child. -/
def Anim.reset : Anim → Anim
  | .animate p t d e _ _ => .animate p t d e none false
  | .seqA l _ t d _ => .seqA (AList.resetAll l) 0 t d false
  | .parA l t d _ => .parA (AList.resetAll l) t d false
  | .loopA c cnt _ t d _ => .loopA (Anim.reset c) cnt 0 t d false

/-- `reset()` of every animation in a list. -/
def AList.resetAll : AList → AList
  | .nil => .nil
  | .cons a l => .cons (Anim.reset a) (AList.resetAll l)
end

/-- `len(self.animations)`. -/
def AList.length : AList → ℕ
  | .nil => 0
  | .cons _ l => AList.length l + 1

/-- The subtraction loop of `Sequence.update` (animation.py lines
534-536): the sum of the durations of the first `n` children. -/
def AList.sumFirst : AList → ℕ → Dur
  | _, 0 => .fin 0
  | .nil, _ + 1 => .fin 0
  | .cons a l, n + 1 => (Anim.duration a).add (AList.sumFirst l n)

/-- `sum(anim.duration for anim in animations)` (animation.py
line 522). -/
def AList.sumDurAux : Dur → AList → Dur
  | acc, .nil => acc
  | acc, .cons a l => AList.sumDurAux (acc.add (Anim.duration a)) l

/-- `max(anim.duration for anim in animations)` (animation.py
line 566), folded over the tail starting from the head's duration. -/
def AList.maxDurAux : Dur → AList → Dur
  | acc, .nil => acc
  | acc, .cons a l => AList.maxDurAux (acc.max (Anim.duration a)) l

mutual
/-- Structural depth of an animation object, used as the termination
measure of `Anim.update` (it ignores all data fields, so `reset`
preserves it). -/
def Anim.depth : Anim → ℕ
  | .animate _ _ _ _ _ _ => 1
  | .seqA l _ _ _ _ => AList.depthL l + 1
  | .parA l _ _ _ => AList.depthL l + 1
  | .loopA c _ _ _ _ _ => Anim.depth c + 1

/-- Structural depth of an animation list. -/
def AList.depthL : AList → ℕ
  | .nil => 1
  | .cons a l => Anim.depth a + AList.depthL l + 1
end

mutual
/-- `reset()` preserves the structural depth of an animation. -/
theorem Anim.depth_reset : ∀ a : Anim, Anim.depth (Anim.reset a) = Anim.depth a
  | .animate _ _ _ _ _ _ => rfl
  | .seqA l _ _ _ _ => by
      simp only [Anim.reset, Anim.depth, AList.depthL_resetAll l]
  | .parA l _ _ _ => by
      simp only [Anim.reset, Anim.depth, AList.depthL_resetAll l]
  | .loopA c _ _ _ _ _ => by
      simp only [Anim.reset, Anim.depth, Anim.depth_reset c]

/-- `reset()` preserves the structural depth of an animation list. -/
theorem AList.depthL_resetAll : ∀ l : AList,
    AList.depthL (AList.resetAll l) = AList.depthL l
  | .nil => rfl
  | .cons a l => by
      simp only [AList.resetAll, AList.depthL, Anim.depth_reset a,
        AList.depthL_resetAll l]
end

mutual
/-- `update(state, elapsed)` of an animation object: returns the
updated animation object, the updated bag, and the returned
completion flag; `none` models an uncaught exception
(out-of-range `current_index` in `Sequence.update`, or float division
by a zero duration).

`animate`: the base-class `Animation.update` (animation.py lines
129-155) driving `Animate._apply` (lines 312-332): a completed
animation returns immediately; `elapsed >= duration` applies the final
state at progress 1 and completes; otherwise the eased
`elapsed/duration` progress is applied.  The parameter resolution is
computed on first apply and cached.

`seqA`: `Sequence.update` (animation.py lines 528-548): subtract the
durations of the children before `current_index`, update only the
current child, advance the index when the child reports completion,
and report completion only when the index runs past the last child.

`parA`: `Parallel.update` (animation.py lines 571-584): update every
not-yet-completed child on the same elapsed clock in order and report
completion once all children report complete.

`loopA`: `Loop.update` (animation.py lines 827-848):
`iteration = int(elapsed / child.duration)` and
`elapsed % child.duration` (Python float `%`, i.e. floor-based);
reset the wrapped child when the iteration advances, complete once a
finite `count` is exhausted, otherwise update the wrapped child and
report not complete (for an infinite child duration the division
yields iteration 0 and the remainder is `elapsed` itself). -/
def Anim.update : Anim → Bag → ℚ → Option (Anim × Bag × Bool)
  | .animate p tgt d eas res compl, bag, elapsed =>
    if compl then some (.animate p tgt d eas res compl, bag, true)
    else if d ≤ elapsed then
      let r := match res with
        | some r => r
        | none => resolveParams p bag
      some (.animate p tgt d eas (some r) true, applyResolved p r bag 1, true)
    else if d = 0 then none
    else
      let progress := elapsed / d
      let eased := eas progress
      let r := match res with
        | some r => r
        | none => resolveParams p bag
      some (.animate p tgt d eas (some r) false, applyResolved p r bag eased, false)
  | .seqA anims idx tgt dur compl, bag, elapsed =>
    if compl then some (.seqA anims idx tgt dur compl, bag, true)
    else
      match AList.sumFirst anims idx with
      | .inf => none
      | .fin s =>
        match AList.updateAt anims idx bag (elapsed - s) with
        | none => none
        | some (anims', bag', isComplete) =>
          if isComplete then
            if AList.length anims' ≤ idx + 1 then
              some (.seqA anims' (idx + 1) tgt dur true, bag', true)
            else
              some (.seqA anims' (idx + 1) tgt dur compl, bag', false)
          else
            some (.seqA anims' idx tgt dur compl, bag', false)
  | .parA anims tgt dur compl, bag, elapsed =>
    if compl then some (.parA anims tgt dur compl, bag, true)
    else
      match AList.updateAll anims bag elapsed with
      | none => none
      | some (anims', bag', allComplete) =>
        some (.parA anims' tgt dur allComplete, bag', allComplete)
  | .loopA child cnt iter tgt dur compl, bag, elapsed =>
    if compl then some (.loopA child cnt iter tgt dur compl, bag, true)
    else
      let step? : Option (ℤ × ℚ) :=
        match Anim.duration child with
        | .inf => some (0, elapsed)
        | .fin d =>
          if d = 0 then none
          else some (pyInt (elapsed / d), elapsed - d * ⌊elapsed / d⌋)
      match step? with
      | none => none
      | some (iteration, elapsedInIteration) =>
        let child1 := if iter < iteration then Anim.reset child else child
        let iter1 := if iter < iteration then iteration else iter
        match cnt with
        | some c =>
          if (c : ℤ) ≤ iter1 then
            some (.loopA child1 cnt iter1 tgt dur true, bag, true)
          else
            match Anim.update child1 bag elapsedInIteration with
            | none => none
            | some (child2, bag', _) =>
              some (.loopA child2 cnt iter1 tgt dur false, bag', false)
        | none =>
          match Anim.update child1 bag elapsedInIteration with
          | none => none
          | some (child2, bag', _) =>
            some (.loopA child2 cnt iter1 tgt dur false, bag', false)
termination_by a _ _ => Anim.depth a
decreasing_by
  all_goals simp only [Anim.depth, AList.depthL]
  all_goals
    (first
      | (split <;> (try simp only [Anim.depth_reset]) <;> omega)
      | omega)

/-- `self.animations[idx].update(state, e)` together with writing the
updated child back into the list; `none` when `idx` is out of range
(Python `IndexError`). -/
def AList.updateAt : AList → ℕ → Bag → ℚ → Option (AList × Bag × Bool)
  | .nil, _, _, _ => none
  | .cons a l, 0, bag, e =>
    match Anim.update a bag e with
    | none => none
    | some (a', bag', c) => some (.cons a' l, bag', c)
  | .cons a l, n + 1, bag, e =>
    match AList.updateAt l n bag e with
    | none => none
    | some (l', bag', c) => some (.cons a l', bag', c)
termination_by l _ _ _ => AList.depthL l
decreasing_by
  all_goals simp only [Anim.depth, AList.depthL]
  all_goals omega

/-- The loop body of `Parallel.update`: children already completed are
skipped (and count as complete); the others are updated in order on
the shared elapsed clock, threading the bag. -/
def AList.updateAll : AList → Bag → ℚ → Option (AList × Bag × Bool)
  | .nil, bag, _ => some (.nil, bag, true)
  | .cons a l, bag, e =>
    if Anim.completed a then
      match AList.updateAll l bag e with
      | none => none
      | some (l', bag', c) => some (.cons a l', bag', c)
    else
      match Anim.update a bag e with
      | none => none
      | some (a', bag', c) =>
        match AList.updateAll l bag' e with
        | none => none
        | some (l', bag'', c2) => some (.cons a' l', bag'', c && c2)
termination_by l _ _ => AList.depthL l
decreasing_by
  all_goals simp only [Anim.depth, AList.depthL]
  all_goals omega
end

/-- `Animate.__init__` (animation.py lines 201-251): fresh object with
no cached resolution and `completed = False`. -/
def mkAnimate (p : AnimateParams) (target : String) (duration : ℚ)
    (easing : ℚ → ℚ) : Anim :=
  .animate p target duration easing none false

/-- `Sequence.__init__` (animation.py lines 516-526) on a non-empty
argument list `first :: rest`: target is the FIRST child's target,
duration is the sum of the children's durations, index starts at 0. -/
def mkSequence (first : Anim) (rest : AList) : Anim :=
  .seqA (.cons first rest) 0 first.target
    (AList.sumDurAux (.fin 0) (.cons first rest)) false

/-- `Parallel.__init__` (animation.py lines 561-569) on a non-empty
argument list: target is the FIRST child's target, duration is the max
of the children's durations. -/
def mkParallel (first : Anim) (rest : AList) : Anim :=
  .parA (.cons first rest) first.target
    (AList.maxDurAux first.duration rest) false

/-- `Loop.__init__` (animation.py lines 819-825): target is the
wrapped animation's target; duration is `inf` when `count` is `None`,
else `child.duration * count`; iteration starts at 0. -/
def mkLoop (child : Anim) (count : Option ℕ) : Anim :=
  .loopA child count 0 child.target
    (match count with
     | none => .inf
     | some c => child.duration.mulNat c) false

/-! ## Scene graph (`scene.py`) -/

/-- A child `ComponentInstance` as `Scene.compute_state` sees it: the
child component's own `compute_state` (a snapshot-producing function
of the time argument) and the mutable scene-side property bag
`instance.state`. -/
structure SceneChild where
  compute_state : ℚ → Bag
  state : Bag

/-- The `Scene` fields driving animation phases and state computation
(scene.py `__init__`, lines 50-81): the three built-in phase lists,
the user-registered custom phases, the active `(start_time, Animation)`
list, the current phase name, the children dict, and the scene-local
clock `self._time` (initialized to `0.0`). -/
structure SceneM where
  entrance_animations : List (ℚ × Anim)
  idle_animations : List (ℚ × Anim)
  exit_animations : List (ℚ × Anim)
  custom_phases : List (String × List (ℚ × Anim))
  current_animations : List (ℚ × Anim)
  current_phase : Option String
  children : List (String × SceneChild)
  time : ℚ

/-- The inner animation loop of `Scene.compute_state` (scene.py lines
150-159) for one child: walk the active animation list in order and,
for each animation whose `target` equals this child's id, call
`anim.update(instance.state, max(0, scene_time - start_time))`,
threading the (mutated) animation objects and bag; the update's return
value is discarded. -/
def applyMatchingAnims (anims : List (ℚ × Anim)) (childId : String)
    (bag : Bag) (sceneTime : ℚ) : Option (List (ℚ × Anim) × Bag) :=
  match anims with
  | [] => some ([], bag)
  | (st, a) :: rest =>
    if a.target = childId then
      match a.update bag (max 0 (sceneTime - st)) with
      | none => none
      | some (a', bag', _) =>
        match applyMatchingAnims rest childId bag' sceneTime with
        | none => none
        | some (rest', bag'') => some ((st, a') :: rest', bag'')
    else
      match applyMatchingAnims rest childId bag sceneTime with
      | none => none
      | some (rest', bag') => some ((st, a) :: rest', bag')

/-- The children loop of `Scene.compute_state` (scene.py lines
148-170): for each child in order, apply the matching animations at
`sceneTime`, then build the per-child state entry combining the
updated bag with the child component's own snapshot
`instance.component.compute_state(time)` — the REAL time argument `t`
is forwarded there.  Returns the mutated animations, the mutated
children, and the `child_states` entries. -/
def sceneComputeStateAux (anims : List (ℚ × Anim))
    (children : List (String × SceneChild)) (sceneTime t : ℚ) :
    Option (List (ℚ × Anim) × List (String × SceneChild) ×
      List (String × (Bag × Bag))) :=
  match children with
  | [] => some (anims, [], [])
  | (cid, inst) :: rest =>
    match applyMatchingAnims anims cid inst.state sceneTime with
    | none => none
    | some (anims', bag') =>
      match sceneComputeStateAux anims' rest sceneTime t with
      | none => none
      | some (anims'', rest', entries) =>
        some (anims'', (cid, { inst with state := bag' }) :: rest',
          (cid, (bag', inst.compute_state t)) :: entries)

/-- `Scene.compute_state(time)` (scene.py lines 133-170): the scene
time used for animations is `self._time` (the internal clock), NOT the
`time` parameter; the parameter is forwarded only to the children's
own `compute_state`. -/
def sceneComputeState (s : SceneM) (t : ℚ) :
    Option (SceneM × List (String × (Bag × Bag))) :=
  match sceneComputeStateAux s.current_animations s.children s.time t with
  | none => none
  | some (anims', children', entries) =>
    some ({ s with current_animations := anims', children := children' },
      entries)

/-- Comparison definition, following the spec's words for a scene
whose internal clock was never advanced: every active animation is
applied at elapsed `0` (its frame-zero value), while the time argument
is still forwarded to the children's own `compute_state`.  Identical
to `applyMatchingAnims` except that the elapsed argument is the
literal `0`. -/
def applyMatchingAnimsAtZero (anims : List (ℚ × Anim)) (childId : String)
    (bag : Bag) : Option (List (ℚ × Anim) × Bag) :=
  match anims with
  | [] => some ([], bag)
  | (st, a) :: rest =>
    if a.target = childId then
      match a.update bag 0 with
      | none => none
      | some (a', bag', _) =>
        match applyMatchingAnimsAtZero rest childId bag' with
        | none => none
        | some (rest', bag'') => some ((st, a') :: rest', bag'')
    else
      match applyMatchingAnimsAtZero rest childId bag with
      | none => none
      | some (rest', bag') => some ((st, a) :: rest', bag')

/-- Comparison definition (spec words): the children loop with every
animation applied at elapsed `0`, the time argument reaching only the
child snapshots. -/
def sceneComputeStateAuxAtZero (anims : List (ℚ × Anim))
    (children : List (String × SceneChild)) (t : ℚ) :
    Option (List (ℚ × Anim) × List (String × SceneChild) ×
      List (String × (Bag × Bag))) :=
  match children with
  | [] => some (anims, [], [])
  | (cid, inst) :: rest =>
    match applyMatchingAnimsAtZero anims cid inst.state with
    | none => none
    | some (anims', bag') =>
      match sceneComputeStateAuxAtZero anims' rest t with
      | none => none
      | some (anims'', rest', entries) =>
        some (anims'', (cid, { inst with state := bag' }) :: rest',
          (cid, (bag', inst.compute_state t)) :: entries)

/-! ## Animation phases (`scene.py`, `set_animation_phase` /
`_start_phase`) -/

/-- The loading loop of `Scene._start_phase` (scene.py lines 281-291):
each `(start_time, anim)` of the phase is reset, scheduled at
`sceneTime + start_time`, and — when its target is a present child —
immediately updated at elapsed `0.0` against that child's bag (both
the animation object and the bag mutate). -/
def loadPhaseAnims (phaseAnims : List (ℚ × Anim))
    (children : List (String × SceneChild)) (sceneTime : ℚ) :
    Option (List (ℚ × Anim) × List (String × SceneChild)) :=
  match phaseAnims with
  | [] => some ([], children)
  | (st, anim) :: rest =>
    let a1 := anim.reset
    match dictGet children a1.target with
    | some inst =>
      match a1.update inst.state 0 with
      | none => none
      | some (a2, bag', _) =>
        let children' := dictSet children a1.target { inst with state := bag' }
        match loadPhaseAnims rest children' sceneTime with
        | none => none
        | some (restAnims, children'') =>
          some ((sceneTime + st, a2) :: restAnims, children'')
    | none =>
      match loadPhaseAnims rest children sceneTime with
      | none => none
      | some (restAnims, children') =>
        some ((sceneTime + st, a1) :: restAnims, children')

/-- `Scene._start_phase(phase, current_scene_time)` (scene.py lines
259-293): FIRST set `_current_phase := phase` and clear the active
animation list, THEN look the phase up among the built-ins and the
custom phases; an unknown name only logs a warning and returns (with
the list already cleared); a known phase is loaded via the loop
above. -/
def startPhase (s : SceneM) (phase : String) (sceneTime : ℚ) :
    Option SceneM :=
  let s1 := { s with current_phase := some phase, current_animations := ([] : List (ℚ × Anim)) }
  let animations? : Option (List (ℚ × Anim)) :=
    if phase = "entrance" then some s.entrance_animations
    else if phase = "idle" then some s.idle_animations
    else if phase = "exit" then some s.exit_animations
    else dictGet s.custom_phases phase
  match animations? with
  | none => some s1
  | some anims =>
    match loadPhaseAnims anims s1.children sceneTime with
    | none => none
    | some (loaded, children') =>
      some { s1 with current_animations := loaded, children := children' }

/-- `Scene.set_animation_phase(phase)` (scene.py lines 232-257):
`None` clears the phase and all animations; a name starts that phase
at the current scene time. -/
def set_animation_phase (s : SceneM) (phase : Option String) :
    Option SceneM :=
  match phase with
  | none =>
    some { s with
      current_phase := (none : Option String)
      current_animations := ([] : List (ℚ × Anim)) }
  | some p => startPhase s p s.time

/-! ## Child management and component lifecycle (`scene.py`
`add_child`/`remove_child`, `component.py` lifecycle triggers) -/

/-- The lifecycle-relevant state of a `Component`: `_mounted`,
`_focused`, the `is_focusable()` answer, and how many times the
mount/unmount callback lists have been fired. -/
structure ComponentLifecycle where
  mounted : Bool
  focused : Bool
  focusable : Bool
  mount_fired : ℕ
  unmount_fired : ℕ
deriving DecidableEq, Repr

/-- `Component._trigger_mount` (component.py lines 159-166): a no-op
when already mounted, otherwise set `_mounted` and fire the mount
callbacks. -/
def trigger_mount (c : ComponentLifecycle) : ComponentLifecycle :=
  if c.mounted then c
  else { c with mounted := true, mount_fired := c.mount_fired + 1 }

/-- `Component._trigger_unmount` (component.py lines 168-175): a no-op
when not mounted, otherwise clear `_mounted` and fire the unmount
callbacks. -/
def trigger_unmount (c : ComponentLifecycle) : ComponentLifecycle :=
  if c.mounted then { c with mounted := false, unmount_fired := c.unmount_fired + 1 }
  else c

/-- A scene child entry as stored by `add_child`: the component (with
its lifecycle state) and the scene-side property bag. -/
structure ChildInstance where
  component : ComponentLifecycle
  state : Bag
deriving DecidableEq, Repr

/-- `Scene.add_child(child_id, component, position, **state)`
(scene.py lines 93-118): fold an optional `position=(x, y)` into the
bag, then store `ComponentInstance(component, **state)` under
`child_id` — nothing else happens. -/
def add_child (children : List (String × ChildInstance)) (child_id : String)
    (component : ComponentLifecycle) (position : Option (ℚ × ℚ))
    (state : Bag) : List (String × ChildInstance) :=
  let state := match position with
    | some (x, y) => dictSet (dictSet state "x" x) "y" y
    | none => state
  dictSet children child_id ⟨component, state⟩

/-- `Scene.remove_child(child_id)` (scene.py lines 120-123): delete
the entry if present — nothing else happens. -/
def remove_child (children : List (String × ChildInstance))
    (child_id : String) : List (String × ChildInstance) :=
  dictDel children child_id

/-! ## Concrete instances used in scenario theorems -/

/-- An `Animate` with no parameter dictionaries, targeting child
`"A"`, duration 1, linear easing (`Animate(target="A", duration=1.0)`
— its `_apply` writes nothing). -/
def animTargetA : Anim :=
  mkAnimate ⟨[], [], [], [], [], [], [], []⟩ "A" 1 id

/-- `Animate(target="B", to_params={"y": 7}, duration=1.0)`. -/
def animTargetB : Anim :=
  mkAnimate ⟨[], [], [("y", 7)], [], [], [], [], []⟩ "B" 1 id

/-- `Sequence(animTargetA, animTargetB)`: first child targets `"A"`,
the nested second child targets `"B"`. -/
def seqAB : Anim :=
  mkSequence animTargetA (.cons animTargetB .nil)

/-- Two scene children `"A"` (bag `x=3`) and `"B"` (bag `y=5`), each
with a constant empty snapshot. -/
def demoChildren : List (String × SceneChild) :=
  [("A", ⟨fun _ => [], [("x", 3)]⟩), ("B", ⟨fun _ => [], [("y", 5)]⟩)]

/-- A scene holding one active animation (scheduled at 0) and no
registered custom phases, internal clock at 0. -/
def sceneWithActiveAnim : SceneM :=
  { entrance_animations := []
    idle_animations := []
    exit_animations := []
    custom_phases := []
    current_animations := [(0, animTargetA)]
    current_phase := some "idle"
    children := []
    time := 0 }

/-- A scene with the two demo children, one active animation
scheduled at 0, internal clock at its initial value 0. -/
def sceneWithChildren : SceneM :=
  { entrance_animations := []
    idle_animations := []
    exit_animations := []
    custom_phases := []
    current_animations := [(0, animTargetA)]
    current_phase := none
    children := demoChildren
    time := 0 }

/-! ## General dictionary lemmas -/

theorem dictGet_cons {α : Type} (a : String × α) (d : List (String × α))
    (k : String) :
    dictGet (a :: d) k = if a.1 = k then some a.2 else dictGet d k := by
  by_cases h : a.1 = k <;> simp [dictGet, List.find?_cons, h]

theorem dictGet_dictSet_self {α : Type} (d : List (String × α)) (k : String)
    (v : α) : dictGet (dictSet d k v) k = some v := by
  induction d with
  | nil => simp [dictSet, dictGet_cons, dictGet]
  | cons a d ih =>
    by_cases h : a.1 = k
    · simp [dictSet, h, dictGet_cons]
    · simpa [dictSet, h, dictGet_cons] using ih

theorem dictGet_dictSet_other {α : Type} (d : List (String × α))
    (k k' : String) (v : α) (h : k' ≠ k) :
    dictGet (dictSet d k v) k' = dictGet d k' := by
  have hkk : ¬ k = k' := fun h' => h h'.symm
  induction d with
  | nil => simp [dictSet, dictGet_cons, dictGet, hkk]
  | cons a d ih =>
    by_cases hak : a.1 = k
    · simp [dictSet, hak, dictGet_cons, hkk, hak ▸ hkk]
    · simp only [dictSet, hak, if_false, dictGet_cons, ih]

theorem dictGet_dictDel_self {α : Type} (d : List (String × α)) (k : String) :
    dictGet (dictDel d k) k = none := by
  induction d with
  | nil => simp [dictDel, dictGet]
  | cons a d ih =>
    by_cases h : a.1 = k
    · simpa [dictDel, List.filter_cons, h] using ih
    · simp only [dictDel, List.filter_cons] at ih ⊢
      simpa [h, dictGet_cons] using ih

theorem dictDel_cons {α : Type} (a : String × α) (d : List (String × α))
    (k : String) :
    dictDel (a :: d) k = if a.1 = k then dictDel d k else a :: dictDel d k := by
  by_cases h : a.1 = k <;> simp [dictDel, List.filter_cons, h]

theorem dictGet_dictDel_other {α : Type} (d : List (String × α))
    (k k' : String) (h : k' ≠ k) :
    dictGet (dictDel d k) k' = dictGet d k' := by
  induction d with
  | nil => simp [dictDel, dictGet]
  | cons a d ih =>
    by_cases hak : a.1 = k
    · have hne : ¬ a.1 = k' := fun h' => h (h' ▸ hak : k' = k)
      rw [dictDel_cons, if_pos hak, ih, dictGet_cons, if_neg hne]
    · rw [dictDel_cons, if_neg hak, dictGet_cons, dictGet_cons, ih]

/-! ## Claim theorems -/

/-- C1: for every component, a `render` call whose `compute_state`
snapshot equals (structurally) the previous snapshot leaves
`_rendered_at` (and the whole bookkeeping state) unchanged, no matter
what the time argument is; the first call whose snapshot differs sets
`_rendered_at` to exactly that call's time argument (and records the
new snapshot, so the property chains over successive calls). -/
theorem rendered_at_advances_only_on_state_change {σ : Type}
    [DecidableEq σ] (compute : ℚ → σ) (rs : RenderState σ) (t : ℚ) :
    (some (compute t) = rs.last_state → componentRender compute rs t = rs) ∧
    (some (compute t) ≠ rs.last_state →
      (componentRender compute rs t).rendered_at = t ∧
      (componentRender compute rs t).last_state = some (compute t)) := by
  constructor <;> intro h
  · simp [componentRender, h]
  · constructor <;> simp [componentRender, h]

/-- Witness for C1: a concrete unchanged-snapshot call keeps
`rendered_at = 1` even at time 7; a concrete changed-snapshot call
sets it to 7. -/
theorem rendered_at_advances_only_on_state_change_witness :
    componentRender (fun _ => (0 : ℕ)) ⟨1, some 0⟩ 7 = ⟨1, some 0⟩ ∧
    (componentRender (fun _ => (0 : ℕ)) ⟨1, some 5⟩ 7).rendered_at = 7 :=
  ⟨(rendered_at_advances_only_on_state_change (fun _ => (0 : ℕ)) ⟨1, some 0⟩ 7).1 rfl,
   ((rendered_at_advances_only_on_state_change (fun _ => (0 : ℕ)) ⟨1, some 5⟩ 7).2
     (by decide)).1⟩

/-- C2: blitting source pixel `(255,0,0,128)` over destination
`(0,0,255,255)` at opacity `1.0` yields exactly `(128,0,127,255)`
(computed over exact rationals; the `float64` evaluation of the source
rounds to the same channel values), whose red and blue channels are
each 127 or 128, green 0, alpha exactly 255.  `blit_pixel` is a pure
function of its inputs, hence deterministic. -/
theorem blit_half_red_over_opaque_blue :
    blit_pixel ⟨255, 0, 0, 128⟩ ⟨0, 0, 255, 255⟩ 1 = ⟨128, 0, 127, 255⟩ ∧
    ((blit_pixel ⟨255, 0, 0, 128⟩ ⟨0, 0, 255, 255⟩ 1).r = 127 ∨
      (blit_pixel ⟨255, 0, 0, 128⟩ ⟨0, 0, 255, 255⟩ 1).r = 128) ∧
    (blit_pixel ⟨255, 0, 0, 128⟩ ⟨0, 0, 255, 255⟩ 1).g = 0 ∧
    ((blit_pixel ⟨255, 0, 0, 128⟩ ⟨0, 0, 255, 255⟩ 1).b = 127 ∨
      (blit_pixel ⟨255, 0, 0, 128⟩ ⟨0, 0, 255, 255⟩ 1).b = 128) ∧
    (blit_pixel ⟨255, 0, 0, 128⟩ ⟨0, 0, 255, 255⟩ 1).a = 255 := by
  norm_num [blit_pixel, toU8]
  decide

/-- C8: for every pixel buffer and every coordinate pair outside
`0 ≤ x < width`, `0 ≤ y < height`, `get_pixel` returns fully
transparent black and `set_pixel` (with either color arity) returns
the buffer unchanged; both are total functions, so no error is
raised. -/
theorem out_of_bounds_pixel_access (buf : RenderBufferM) (x y : ℤ)
    (c : ColorArg)
    (h : ¬ (0 ≤ x ∧ x < (buf.width : ℤ) ∧ 0 ≤ y ∧ y < (buf.height : ℤ))) :
    get_pixel buf x y = ⟨0, 0, 0, 0⟩ ∧ set_pixel buf x y c = buf := by
  constructor
  · simp [get_pixel, h]
  · simp [set_pixel, h]

/-- Witness for C8: a 2×2 buffer read/written at `(5, 0)`. -/
theorem out_of_bounds_pixel_access_witness :
    get_pixel ⟨2, 2, fun _ => ⟨9, 9, 9, 255⟩⟩ 5 0 = ⟨0, 0, 0, 0⟩ ∧
    set_pixel ⟨2, 2, fun _ => ⟨9, 9, 9, 255⟩⟩ 5 0 (.rgb 1 2 3) =
      ⟨2, 2, fun _ => ⟨9, 9, 9, 255⟩⟩ :=
  out_of_bounds_pixel_access ⟨2, 2, fun _ => ⟨9, 9, 9, 255⟩⟩ 5 0 (.rgb 1 2 3)
    (by decide)

/-- C3: the render cache default capacities are 128 (leaf
`cache_with_dict`) and 32 (`Scene._render_cached`); eviction is by
oldest-inserted (FIFO), not least-recently-used: with capacity 2 and
distinct states `s1, s2, s3` inserted in that order, any number of
interleaved re-accesses of `s1` leaves the cache unchanged, and
inserting `s3` evicts `s1`. -/
theorem render_cache_fifo_eviction {κ β : Type} [DecidableEq κ] (f : κ → β)
    (s1 s2 s3 : κ) (h12 : s1 ≠ s2) (h13 : s1 ≠ s3) (h23 : s2 ≠ s3) :
    (cache_with_dict_default_maxsize = 128 ∧ scene_render_cache_maxsize = 32) ∧
    cacheStep 2 f [] s1 = some ([(s1, f s1)], f s1) ∧
    cacheStep 2 f [(s1, f s1)] s2 = some ([(s1, f s1), (s2, f s2)], f s2) ∧
    cacheStep 2 f [(s1, f s1), (s2, f s2)] s1 =
      some ([(s1, f s1), (s2, f s2)], f s1) ∧
    (∀ m : ℕ,
      (fun c => ((cacheStep 2 f c s1).map Prod.fst).getD c)^[m]
        [(s1, f s1), (s2, f s2)] = [(s1, f s1), (s2, f s2)]) ∧
    cacheStep 2 f [(s1, f s1), (s2, f s2)] s3 =
      some ([(s2, f s2), (s3, f s3)], f s3) ∧
    cacheLookup [(s2, f s2), (s3, f s3)] s1 = none := by
  have h21 : s2 ≠ s1 := Ne.symm h12
  have h31 : s3 ≠ s1 := Ne.symm h13
  have hre : cacheStep 2 f [(s1, f s1), (s2, f s2)] s1 =
      some ([(s1, f s1), (s2, f s2)], f s1) := by
    simp [cacheStep, cacheLookup]
  refine ⟨⟨rfl, rfl⟩, ?_, ?_, hre, ?_, ?_, ?_⟩
  · simp [cacheStep, cacheLookup]
  · simp [cacheStep, cacheLookup, h12]
  · intro m
    induction m with
    | zero => rfl
    | succ n ih => rw [Function.iterate_succ_apply', ih, hre]; rfl
  · simp [cacheStep, cacheLookup, h13, h23]
  · simp [cacheLookup, h21, h31]

/-- Witness for C3 at `κ = β = ℕ`, `f = id`, states `0, 1, 2`:
inserting 2 into the full cache `[0, 1]` evicts 0. -/
theorem render_cache_fifo_eviction_witness :
    cacheStep 2 (fun k : ℕ => k) [(0, 0), (1, 1)] 2 =
      some ([(1, 1), (2, 2)], 2) ∧
    cacheLookup [(1, 1), (2, 2)] (0 : ℕ) = (none : Option ℕ) :=
  ⟨(render_cache_fifo_eviction (fun k : ℕ => k) 0 1 2 (by decide) (by decide)
      (by decide)).2.2.2.2.2.1,
   (render_cache_fifo_eviction (fun k : ℕ => k) 0 1 2 (by decide) (by decide)
      (by decide)).2.2.2.2.2.2⟩

/-- C4: `Animate` parameter resolution.  The `to` value follows the
precedence integer-absolute → integer-relative-to-current →
float-absolute → float-relative-to-current → current bag value; the
`from` value follows the same precedence but its relative variants are
offset from the already-resolved `to` value `to_val` (note `current`
and `to_val` are independent variables below, so the `from`-relative
results provably do not depend on `current`); a parameter absent from
the bag has current value 0. -/
theorem animate_resolution_precedence (p : AnimateParams) (k : String)
    (current to_val : ℚ) (bag : Bag) :
    (∀ v, dictGet p.to_params_int k = some v →
      resolveTo p k current = v) ∧
    (∀ v, dictGet p.to_params_int k = none →
      dictGet p.to_params_rel_int k = some v →
      resolveTo p k current = current + v) ∧
    (∀ v, dictGet p.to_params_int k = none →
      dictGet p.to_params_rel_int k = none →
      dictGet p.to_params k = some v →
      resolveTo p k current = v) ∧
    (∀ v, dictGet p.to_params_int k = none →
      dictGet p.to_params_rel_int k = none →
      dictGet p.to_params k = none →
      dictGet p.to_params_rel k = some v →
      resolveTo p k current = current + v) ∧
    (dictGet p.to_params_int k = none →
      dictGet p.to_params_rel_int k = none →
      dictGet p.to_params k = none →
      dictGet p.to_params_rel k = none →
      resolveTo p k current = current) ∧
    (∀ v, dictGet p.from_params_int k = some v →
      resolveFrom p k current to_val = v) ∧
    (∀ v, dictGet p.from_params_int k = none →
      dictGet p.from_params_rel_int k = some v →
      resolveFrom p k current to_val = to_val + v) ∧
    (∀ v, dictGet p.from_params_int k = none →
      dictGet p.from_params_rel_int k = none →
      dictGet p.from_params k = some v →
      resolveFrom p k current to_val = v) ∧
    (∀ v, dictGet p.from_params_int k = none →
      dictGet p.from_params_rel_int k = none →
      dictGet p.from_params k = none →
      dictGet p.from_params_rel k = some v →
      resolveFrom p k current to_val = to_val + v) ∧
    (dictGet p.from_params_int k = none →
      dictGet p.from_params_rel_int k = none →
      dictGet p.from_params k = none →
      dictGet p.from_params_rel k = none →
      resolveFrom p k current to_val = current) ∧
    (dictGet bag k = none → bagGet bag k = 0) := by
  refine ⟨?_, ?_, ?_, ?_, ?_, ?_, ?_, ?_, ?_, ?_, ?_⟩
  · intro v h1; simp [resolveTo, h1]
  · intro v h1 h2; simp [resolveTo, h1, h2]
  · intro v h1 h2 h3; simp [resolveTo, h1, h2, h3]
  · intro v h1 h2 h3 h4; simp [resolveTo, h1, h2, h3, h4]
  · intro h1 h2 h3 h4; simp [resolveTo, h1, h2, h3, h4]
  · intro v h1; simp [resolveFrom, h1]
  · intro v h1 h2; simp [resolveFrom, h1, h2]
  · intro v h1 h2 h3; simp [resolveFrom, h1, h2, h3]
  · intro v h1 h2 h3 h4; simp [resolveFrom, h1, h2, h3, h4]
  · intro h1 h2 h3 h4; simp [resolveFrom, h1, h2, h3, h4]
  · intro h1; simp [bagGet, h1]

/-- Witness for C4: a concrete parameter set where `to` resolves
through the integer-relative-to-current variant (current 100,
offset 3 → 103) and `from` resolves through the
integer-relative-to-`to` variant (to 103, offset -8 → 95), and an
absent bag key reads as 0. -/
theorem animate_resolution_precedence_witness :
    resolveTo
      { from_params := [], from_params_rel := [], to_params := [("x", 50)],
        to_params_rel := [], from_params_int := [],
        from_params_rel_int := [("x", -8)], to_params_int := [],
        to_params_rel_int := [("x", 3)] } "x" 100 = 103 ∧
    resolveFrom
      { from_params := [], from_params_rel := [], to_params := [("x", 50)],
        to_params_rel := [], from_params_int := [],
        from_params_rel_int := [("x", -8)], to_params_int := [],
        to_params_rel_int := [("x", 3)] } "x" 100 103 = 95 ∧
    bagGet [("y", 4)] "x" = 0 := by
  refine ⟨?_, ?_, ?_⟩
  · have h := (animate_resolution_precedence
      { from_params := [], from_params_rel := [], to_params := [("x", 50)],
        to_params_rel := [], from_params_int := [],
        from_params_rel_int := [("x", -8)], to_params_int := [],
        to_params_rel_int := [("x", 3)] } "x" 100 103 []).2.1 3 rfl rfl
    norm_num at h
    exact h
  · have h := (animate_resolution_precedence
      { from_params := [], from_params_rel := [], to_params := [("x", 50)],
        to_params_rel := [], from_params_int := [],
        from_params_rel_int := [("x", -8)], to_params_int := [],
        to_params_rel_int := [("x", 3)] } "x" 100 103 []).2.2.2.2.2.2.1
      (-8) rfl rfl
    norm_num at h
    exact h
  · exact (animate_resolution_precedence
      { from_params := [], from_params_rel := [], to_params := [("x", 50)],
        to_params_rel := [], from_params_int := [],
        from_params_rel_int := [("x", -8)], to_params_int := [],
        to_params_rel_int := [("x", 3)] } "x" 100 103 [("y", 4)]).2.2.2.2.2.2.2.2.2.2
      rfl

/-- C7 counterexample: adding a focusable, unmounted component to an
empty scene stores it completely unchanged — its `mounted` flag stays
`false` and its mount callbacks never fire (whereas actually
triggering the mount hook, `trigger_mount`, would set `mounted` and
fire them), and it does not receive focus even though it is focusable
and no other child holds focus.  So `add_child` triggers no mount hook
and assigns no focus. -/
theorem add_child_no_mount_no_focus_counterexample :
    add_child [] "textbox" ⟨false, false, true, 0, 0⟩ none [] =
      [("textbox", ⟨⟨false, false, true, 0, 0⟩, []⟩)] ∧
    (⟨false, false, true, 0, 0⟩ : ComponentLifecycle).mounted = false ∧
    (⟨false, false, true, 0, 0⟩ : ComponentLifecycle).focused = false ∧
    (⟨false, false, true, 0, 0⟩ : ComponentLifecycle).mount_fired = 0 ∧
    trigger_mount ⟨false, false, true, 0, 0⟩ = ⟨true, false, true, 1, 0⟩ ∧
    remove_child [("textbox", ⟨⟨true, true, true, 1, 0⟩, []⟩)] "textbox" = [] := by
  refine ⟨rfl, rfl, rfl, rfl, ?_, rfl⟩
  simp [trigger_mount]

/-- C7 amended: `add_child` only inserts the `(component, bag)` pair
(folding an optional position into the bag) and `remove_child` only
deletes the entry; the stored component is bit-for-bit the one passed
in (no mount hook fires, no focus is assigned) and every other child's
entry — component lifecycle state included — is untouched by both
operations.  `Scene` has no focus bookkeeping at all. -/
theorem child_management_is_pure_bookkeeping
    (children : List (String × ChildInstance)) (cid oid : String)
    (comp : ComponentLifecycle) (pos : Option (ℚ × ℚ)) (bag : Bag)
    (hne : oid ≠ cid) :
    dictGet (add_child children cid comp pos bag) cid =
      some ⟨comp,
        match pos with
        | some (x, y) => dictSet (dictSet bag "x" x) "y" y
        | none => bag⟩ ∧
    dictGet (add_child children cid comp pos bag) oid = dictGet children oid ∧
    dictGet (remove_child children cid) cid = none ∧
    dictGet (remove_child children cid) oid = dictGet children oid := by
  refine ⟨?_, ?_, ?_, ?_⟩
  · cases pos with
    | none => exact dictGet_dictSet_self children cid ⟨comp, bag⟩
    | some xy =>
      cases xy with
      | mk x y => exact dictGet_dictSet_self children cid _
  · cases pos with
    | none => exact dictGet_dictSet_other children cid oid _ hne
    | some xy =>
      cases xy with
      | mk x y => exact dictGet_dictSet_other children cid oid _ hne
  · exact dictGet_dictDel_self children cid
  · exact dictGet_dictDel_other children cid oid hne

/-- Witness for the amended C7 at a concrete scene of one prior
child. -/
theorem child_management_is_pure_bookkeeping_witness :
    dictGet
      (add_child [("old", ⟨⟨true, true, true, 1, 0⟩, []⟩)] "new"
        ⟨false, false, true, 0, 0⟩ (some (4, 5)) []) "new" =
      some ⟨⟨false, false, true, 0, 0⟩, [("x", 4), ("y", 5)]⟩ ∧
    dictGet
      (add_child [("old", ⟨⟨true, true, true, 1, 0⟩, []⟩)] "new"
        ⟨false, false, true, 0, 0⟩ (some (4, 5)) []) "old" =
      dictGet [("old", ⟨⟨true, true, true, 1, 0⟩, []⟩)] "old" ∧
    dictGet (remove_child [("old", (⟨⟨true, true, true, 1, 0⟩, []⟩ :
      ChildInstance))] "old") "old" = none := by
  have h := child_management_is_pure_bookkeeping
    [("old", ⟨⟨true, true, true, 1, 0⟩, []⟩)] "new" "old"
    ⟨false, false, true, 0, 0⟩ (some (4, 5)) [] (by decide)
  exact ⟨h.1, h.2.1, (child_management_is_pure_bookkeeping
    [("old", ⟨⟨true, true, true, 1, 0⟩, []⟩)] "old" "x"
    ⟨false, false, true, 0, 0⟩ none [] (by decide)).2.2.1⟩

/-- C6 counterexample: requesting an unknown phase name on a scene
with a non-empty active animation list raises no exception (the
result is `some …`) but does NOT leave the previously loaded phase's
animation list untouched: `_start_phase` clears the list before
validating the name, so the active list comes back empty. -/
theorem set_animation_phase_unknown_clears_counterexample :
    (set_animation_phase sceneWithActiveAnim (some "sparkle")).map
      (fun s => s.current_animations.length) = some 0 ∧
    sceneWithActiveAnim.current_animations.length = 1 := by
  constructor
  · simp [set_animation_phase, startPhase, sceneWithActiveAnim, dictGet]
  · rfl

/-- C6 amended: for every scene, `set_animation_phase` with a name
that is neither a built-in phase (`entrance`/`idle`/`exit`) nor a
registered custom phase is non-fatal (it returns normally after
logging a warning), but it CLEARS the active animation list and
records the unknown name as the current phase — it does not preserve
the prior phase's animations. -/
theorem set_animation_phase_unknown_nonfatal_but_clears (s : SceneM)
    (phase : String) (h1 : phase ≠ "entrance") (h2 : phase ≠ "idle")
    (h3 : phase ≠ "exit") (h4 : dictGet s.custom_phases phase = none) :
    set_animation_phase s (some phase) =
      some { s with
        current_phase := some phase
        current_animations := ([] : List (ℚ × Anim)) } := by
  simp [set_animation_phase, startPhase, h1, h2, h3, h4]

/-- Witness for the amended C6 at the concrete scene and the unknown
name `"sparkle"`. -/
theorem set_animation_phase_unknown_nonfatal_but_clears_witness :
    set_animation_phase sceneWithActiveAnim (some "sparkle") =
      some { sceneWithActiveAnim with
        current_phase := some "sparkle"
        current_animations := ([] : List (ℚ × Anim)) } :=
  set_animation_phase_unknown_nonfatal_but_clears sceneWithActiveAnim
    "sparkle" (by decide) (by decide) (by decide) rfl


/-- C5 amended: for a freshly-constructed (= freshly-reset) `Sequence`
of two animations with durations `d1, d2` (`0 < ε < d1`, `0 ≤ d2`):
its total duration is `d1 + d2`; `update` at elapsed `d1 - ε` reports
not complete; `Sequence.update` advances AT MOST ONE child per
invocation, so the next `update` at elapsed `d1 + d2` completes the
first child and advances the index but STILL reports not complete
(and leaves `completed = False`); only the following `update` at
elapsed `d1 + d2` completes the second child and reports complete. -/
theorem sequence_additivity_stepwise (p1 p2 : AnimateParams)
    (e1 e2 : ℚ → ℚ) (t1 t2 : String) (d1 d2 ε : ℚ) (bag1 bag2 bag3 : Bag)
    (hε : 0 < ε) (hεd : ε < d1) (hd2 : 0 ≤ d2) :
    (mkSequence (mkAnimate p1 t1 d1 e1)
        (.cons (mkAnimate p2 t2 d2 e2) .nil)).duration = .fin (d1 + d2) ∧
    Anim.update
      (mkSequence (mkAnimate p1 t1 d1 e1) (.cons (mkAnimate p2 t2 d2 e2) .nil))
      bag1 (d1 - ε) =
      some (.seqA
        (.cons (.animate p1 t1 d1 e1 (some (resolveParams p1 bag1)) false)
          (.cons (.animate p2 t2 d2 e2 none false) .nil))
        0 t1 (.fin (d1 + d2)) false,
        applyResolved p1 (resolveParams p1 bag1) bag1 (e1 ((d1 - ε) / d1)),
        false) ∧
    Anim.update
      (.seqA
        (.cons (.animate p1 t1 d1 e1 (some (resolveParams p1 bag1)) false)
          (.cons (.animate p2 t2 d2 e2 none false) .nil))
        0 t1 (.fin (d1 + d2)) false)
      bag2 (d1 + d2) =
      some (.seqA
        (.cons (.animate p1 t1 d1 e1 (some (resolveParams p1 bag1)) true)
          (.cons (.animate p2 t2 d2 e2 none false) .nil))
        1 t1 (.fin (d1 + d2)) false,
        applyResolved p1 (resolveParams p1 bag1) bag2 1,
        false) ∧
    Anim.update
      (.seqA
        (.cons (.animate p1 t1 d1 e1 (some (resolveParams p1 bag1)) true)
          (.cons (.animate p2 t2 d2 e2 none false) .nil))
        1 t1 (.fin (d1 + d2)) false)
      bag3 (d1 + d2) =
      some (.seqA
        (.cons (.animate p1 t1 d1 e1 (some (resolveParams p1 bag1)) true)
          (.cons (.animate p2 t2 d2 e2 (some (resolveParams p2 bag3)) true) .nil))
        2 t1 (.fin (d1 + d2)) true,
        applyResolved p2 (resolveParams p2 bag3) bag3 1,
        true) := by
  have h0 : (0 : ℚ) < d1 := hε.trans hεd
  have h1 : ¬ (d1 ≤ d1 - ε) := by linarith
  have h2 : ¬ (d1 = 0) := by linarith
  have h3 : d1 ≤ d1 + d2 := by linarith
  refine ⟨?_, ?_, ?_, ?_⟩
  · simp [mkSequence, mkAnimate, Anim.duration, AList.sumDurAux, Dur.add]
  · simp [mkSequence, mkAnimate, Anim.update, AList.sumFirst, AList.updateAt,
      AList.length, AList.sumDurAux, Dur.add, Anim.duration, Anim.target, h1, h2]
  · simp [Anim.update, AList.sumFirst, AList.updateAt, AList.length,
      Dur.add, Anim.duration, h3]
  · simp [Anim.update, AList.sumFirst, AList.updateAt, AList.length,
      Dur.add, Anim.duration, hd2]

/-- C5 counterexample: a freshly-constructed `Sequence` of two
animations with `d1 = d2 = 1`, updated at elapsed `d1 - ε = 1/2`
(reports not complete, as the claim says) and then at elapsed
`d1 + d2 = 2`: that second `update` invocation returns `False` and
leaves `completed = False` — the claim says it reports complete, but
`Sequence.update` advances only one child per call. -/
theorem sequence_update_at_total_not_complete_counterexample :
    ((Anim.update (mkSequence animTargetA (.cons animTargetB .nil)) []
        (1 / 2)).bind
      (fun r => Anim.update r.1 [] 2)).map
        (fun r => (r.1.completed, r.2.2)) = some (false, false) := by
  norm_num [mkSequence, mkAnimate, animTargetA, animTargetB, Anim.update,
    AList.sumFirst, AList.updateAt, AList.length, AList.sumDurAux, Dur.add,
    Anim.duration, Anim.target, Anim.completed, resolveParams,
    AnimateParams.allParams, applyResolved, Option.bind]

/-- Witness for the amended C5 at `d1 = d2 = 1`, `ε = 1/2`, empty
parameter dictionaries: duration additivity and the completing third
invocation. -/
theorem sequence_additivity_stepwise_witness :
    (mkSequence (mkAnimate ⟨[], [], [], [], [], [], [], []⟩ "A" 1 id)
        (.cons (mkAnimate ⟨[], [], [("y", 7)], [], [], [], [], []⟩ "B" 1 id)
          .nil)).duration = .fin (1 + 1) ∧
    Anim.update
      (.seqA
        (.cons (.animate ⟨[], [], [], [], [], [], [], []⟩ "A" 1 id
            (some (resolveParams ⟨[], [], [], [], [], [], [], []⟩ [])) true)
          (.cons (.animate ⟨[], [], [("y", 7)], [], [], [], [], []⟩ "B" 1 id
            none false) .nil))
        1 "A" (.fin (1 + 1)) false) [] (1 + 1) =
      some (.seqA
        (.cons (.animate ⟨[], [], [], [], [], [], [], []⟩ "A" 1 id
            (some (resolveParams ⟨[], [], [], [], [], [], [], []⟩ [])) true)
          (.cons (.animate ⟨[], [], [("y", 7)], [], [], [], [], []⟩ "B" 1 id
            (some (resolveParams ⟨[], [], [("y", 7)], [], [], [], [], []⟩ []))
            true) .nil))
        2 "A" (.fin (1 + 1)) true,
        applyResolved ⟨[], [], [("y", 7)], [], [], [], [], []⟩
          (resolveParams ⟨[], [], [("y", 7)], [], [], [], [], []⟩ []) [] 1,
        true) :=
  ⟨(sequence_additivity_stepwise ⟨[], [], [], [], [], [], [], []⟩
      ⟨[], [], [("y", 7)], [], [], [], [], []⟩ id id "A" "B" 1 1 (1 / 2)
      [] [] [] (by norm_num) (by norm_num) (by norm_num)).1,
   (sequence_additivity_stepwise ⟨[], [], [], [], [], [], [], []⟩
      ⟨[], [], [("y", 7)], [], [], [], [], []⟩ id id "A" "B" 1 1 (1 / 2)
      [] [] [] (by norm_num) (by norm_num) (by norm_num)).2.2.2⟩

/-! ## Lemmas for the internal-clock claim -/

theorem applyMatchingAnims_zero (anims : List (ℚ × Anim)) (cid : String)
    (bag : Bag) (h : ∀ p ∈ anims, 0 ≤ p.1) :
    applyMatchingAnims anims cid bag 0 =
      applyMatchingAnimsAtZero anims cid bag := by
  induction anims generalizing bag with
  | nil => rfl
  | cons p rest ih =>
    obtain ⟨st, a⟩ := p
    have hst : 0 ≤ st := h (st, a) (by simp)
    have hrest : ∀ q ∈ rest, 0 ≤ q.1 := fun q hq => h q (by simp [hq])
    have hmax : max 0 (0 - st) = 0 := by
      rw [max_eq_left]; linarith
    simp only [applyMatchingAnims, applyMatchingAnimsAtZero, hmax]
    by_cases hta : a.target = cid
    · simp only [if_pos hta]
      cases hu : Anim.update a bag 0 with
      | none => rfl
      | some r =>
        obtain ⟨a2, bag2, c⟩ := r
        simp only [ih bag2 hrest]
    · simp only [if_neg hta, ih bag hrest]

theorem applyMatchingAnimsAtZero_fst (anims : List (ℚ × Anim))
    (cid : String) (bag : Bag) (res : List (ℚ × Anim) × Bag)
    (h : applyMatchingAnimsAtZero anims cid bag = some res) :
    res.1.map Prod.fst = anims.map Prod.fst := by
  induction anims generalizing bag res with
  | nil =>
    simp only [applyMatchingAnimsAtZero] at h
    cases h
    rfl
  | cons p rest ih =>
    obtain ⟨st, a⟩ := p
    simp only [applyMatchingAnimsAtZero] at h
    by_cases hta : a.target = cid
    · simp only [if_pos hta] at h
      cases hu : Anim.update a bag 0 with
      | none => simp [hu] at h
      | some r =>
        obtain ⟨a2, bag2, c⟩ := r
        simp only [hu] at h
        cases hr : applyMatchingAnimsAtZero rest cid bag2 with
        | none => simp [hr] at h
        | some r2 =>
          obtain ⟨rest2, bagr⟩ := r2
          simp only [hr, Option.some.injEq] at h
          subst h
          simpa using ih bag2 (rest2, bagr) hr
    · simp only [if_neg hta] at h
      cases hr : applyMatchingAnimsAtZero rest cid bag with
      | none => simp [hr] at h
      | some r2 =>
        obtain ⟨rest2, bagr⟩ := r2
        simp only [hr, Option.some.injEq] at h
        subst h
        simpa using ih bag (rest2, bagr) hr

theorem sceneComputeStateAux_zero (children : List (String × SceneChild))
    (anims : List (ℚ × Anim)) (t : ℚ) (h : ∀ p ∈ anims, 0 ≤ p.1) :
    sceneComputeStateAux anims children 0 t =
      sceneComputeStateAuxAtZero anims children t := by
  induction children generalizing anims with
  | nil => rfl
  | cons c rest ih =>
    obtain ⟨cid, inst⟩ := c
    simp only [sceneComputeStateAux, sceneComputeStateAuxAtZero]
    rw [applyMatchingAnims_zero anims cid inst.state h]
    cases hu : applyMatchingAnimsAtZero anims cid inst.state with
    | none => rfl
    | some r =>
      obtain ⟨anims2, bag2⟩ := r
      have h2 : ∀ p ∈ anims2, 0 ≤ p.1 := by
        intro p hp
        have hmem : p.1 ∈ anims.map Prod.fst := by
          rw [← applyMatchingAnimsAtZero_fst anims cid inst.state _ hu]
          exact List.mem_map_of_mem Prod.fst hp
        obtain ⟨q, hq, hq1⟩ := List.mem_map.mp hmem
        exact hq1 ▸ h q hq
      simp only [ih anims2 h2]

theorem sceneComputeStateAuxAtZero_scene_part
    (children : List (String × SceneChild)) (anims : List (ℚ × Anim))
    (t u : ℚ) :
    (sceneComputeStateAuxAtZero anims children t).map
      (fun r => (r.1, r.2.1)) =
    (sceneComputeStateAuxAtZero anims children u).map
      (fun r => (r.1, r.2.1)) := by
  induction children generalizing anims with
  | nil => rfl
  | cons c rest ih =>
    obtain ⟨cid, inst⟩ := c
    simp only [sceneComputeStateAuxAtZero]
    cases hu : applyMatchingAnimsAtZero anims cid inst.state with
    | none => rfl
    | some r =>
      obtain ⟨anims2, bag2⟩ := r
      have hih := ih anims2
      cases ht : sceneComputeStateAuxAtZero anims2 rest t with
      | none =>
        cases hu2 : sceneComputeStateAuxAtZero anims2 rest u with
        | none => simp [ht, hu2]
        | some r2 => simp [ht, hu2] at hih
      | some r2 =>
        cases hu2 : sceneComputeStateAuxAtZero anims2 rest u with
        | none => simp [ht, hu2] at hih
        | some r3 =>
          obtain ⟨a2, c2, e2⟩ := r2
          obtain ⟨a3, c3, e3⟩ := r3
          rw [ht, hu2] at hih
          simp at hih
          obtain ⟨ha, hc⟩ := hih
          subst ha
          subst hc
          simp [ht, hu2]

/-- C9: `Scene.compute_state` applies active animations using the
scene's internal clock `self._time` (initialized to 0), not the time
argument: for a scene whose internal clock was never advanced and
whose animation start times are nonnegative, `compute_state t` for ANY
`t` equals the frame-zero dispatch (every active animation updated at
elapsed 0), while `t` is still forwarded to the child components' own
`compute_state`; consequently the animation-updated scene state is
identical for any two time arguments `t, u`. -/
theorem scene_compute_state_uses_internal_clock (s : SceneM) (t u : ℚ)
    (h0 : s.time = 0) (hst : ∀ p ∈ s.current_animations, 0 ≤ p.1) :
    (sceneComputeState s t =
      match sceneComputeStateAuxAtZero s.current_animations s.children t with
      | none => none
      | some (anims2, children2, entries) =>
        some ({ s with current_animations := anims2, children := children2 },
          entries)) ∧
    (sceneComputeState s t).map (fun r => r.1) =
      (sceneComputeState s u).map (fun r => r.1) := by
  have key : ∀ τ : ℚ, sceneComputeState s τ =
      match sceneComputeStateAuxAtZero s.current_animations s.children τ with
      | none => none
      | some (anims2, children2, entries) =>
        some ({ s with current_animations := anims2, children := children2 },
          entries) := by
    intro τ
    rw [sceneComputeState, h0,
      sceneComputeStateAux_zero s.children s.current_animations τ hst]
  refine ⟨key t, ?_⟩
  rw [key t, key u]
  have hD := sceneComputeStateAuxAtZero_scene_part s.children
    s.current_animations t u
  cases ht : sceneComputeStateAuxAtZero s.current_animations s.children t with
  | none =>
    cases hu : sceneComputeStateAuxAtZero s.current_animations s.children u with
    | none => rfl
    | some r => simp [ht, hu] at hD
  | some r =>
    cases hu : sceneComputeStateAuxAtZero s.current_animations s.children u with
    | none => simp [ht, hu] at hD
    | some r2 =>
      obtain ⟨a1, c1, e1⟩ := r
      obtain ⟨a2, c2, e2⟩ := r2
      rw [ht, hu] at hD
      simp at hD
      obtain ⟨ha, hc⟩ := hD
      subst ha
      subst hc
      simp

/-- Witness for C9: the demo scene (clock never advanced) computes the
same animation-updated scene state at times 5 and 9. -/
theorem scene_compute_state_uses_internal_clock_witness :
    (sceneComputeState sceneWithChildren 5).map (fun r => r.1) =
      (sceneComputeState sceneWithChildren 9).map (fun r => r.1) :=
  (scene_compute_state_uses_internal_clock sceneWithChildren 5 9 rfl
    (by intro p hp; simp [sceneWithChildren] at hp; simp [hp])).2

/-- C10: every combinator animation reports as its target the target
of its first (`Sequence`, `Parallel`) or wrapped (`Loop`) child; the
scene's state-computation pass dispatches an animation's `update` only
against the bag of the child matching that target (children matching
no animation target keep their bag untouched, and a single matching
animation is applied exactly to that child's bag); concretely, a
`Sequence` whose first child targets `"A"` and whose nested second
child targets `"B"` is dispatched against child `"A"` only, so the
nested `to_params={"y": 7}` write lands in `"A"`'s bag while `"B"`'s
bag keeps `y = 5`. -/
theorem combinator_target_and_dispatch :
    (∀ (a : Anim) (rest : AList), (mkSequence a rest).target = a.target) ∧
    (∀ (a : Anim) (rest : AList), (mkParallel a rest).target = a.target) ∧
    (∀ (a : Anim) (cnt : Option ℕ), (mkLoop a cnt).target = a.target) ∧
    (∀ (anims : List (ℚ × Anim)) (cid : String) (bag : Bag)
      (sceneTime : ℚ), (∀ p ∈ anims, Anim.target p.2 ≠ cid) →
      applyMatchingAnims anims cid bag sceneTime = some (anims, bag)) ∧
    (∀ (st : ℚ) (a : Anim) (cid : String) (bag : Bag) (sceneTime : ℚ),
      a.target = cid →
      applyMatchingAnims [(st, a)] cid bag sceneTime =
        (Anim.update a bag (max 0 (sceneTime - st))).map
          (fun r => ([(st, r.1)], r.2.1))) ∧
    ((sceneComputeStateAux [(0, seqAB)] demoChildren 1 0).bind
      (fun r => sceneComputeStateAux r.1 r.2.1 2 0)).map (fun r => r.2.2) =
      some [("A", ([("x", 3), ("y", 7)], [])), ("B", ([("y", 5)], []))] := by
  refine ⟨?_, ?_, ?_, ?_, ?_, ?_⟩
  · intro a rest; simp [mkSequence, Anim.target]
  · intro a rest; simp [mkParallel, Anim.target]
  · intro a cnt; simp [mkLoop, Anim.target]
  · intro anims cid bag sceneTime h
    induction anims generalizing bag with
    | nil => rfl
    | cons p rest ih =>
      obtain ⟨st, a⟩ := p
      have hta : ¬ a.target = cid := h (st, a) (by simp)
      have hrest : ∀ q ∈ rest, Anim.target q.2 ≠ cid :=
        fun q hq => h q (by simp [hq])
      simp only [applyMatchingAnims, if_neg hta, ih bag hrest]
  · intro st a cid bag sceneTime hta
    simp only [applyMatchingAnims, if_pos hta]
    cases hu : Anim.update a bag (max 0 (sceneTime - st)) with
    | none => rfl
    | some r =>
      obtain ⟨a2, bag2, c⟩ := r
      simp [applyMatchingAnims]
  · have h1 : sceneComputeStateAux [(0, seqAB)] demoChildren 1 0 =
        some ([(0, .seqA
          (.cons (.animate ⟨[], [], [], [], [], [], [], []⟩ "A" 1 id
              (some []) true)
            (.cons (.animate ⟨[], [], [("y", 7)], [], [], [], [], []⟩ "B" 1
              id none false) .nil))
          1 "A" (.fin 2) false)],
          [("A", ⟨fun _ => [], [("x", 3)]⟩), ("B", ⟨fun _ => [], [("y", 5)]⟩)],
          [("A", ([("x", 3)], [])), ("B", ([("y", 5)], []))]) := by
      norm_num [sceneComputeStateAux, applyMatchingAnims, seqAB, mkSequence,
        mkAnimate, animTargetA, animTargetB, Anim.update, Anim.target,
        Anim.duration, Anim.completed, AList.sumFirst, AList.updateAt,
        AList.length, AList.sumDurAux, Dur.add, resolveParams,
        AnimateParams.allParams, applyResolved, demoChildren, max_def,
        (show ("A" : String) ≠ "B" by decide),
        (show ("B" : String) ≠ "A" by decide),
        (show ("x" : String) ≠ "y" by decide)]
    rw [h1]
    norm_num [Option.bind, sceneComputeStateAux, applyMatchingAnims,
      Anim.update, Anim.target, Anim.duration, Anim.completed,
      AList.sumFirst, AList.updateAt, AList.length, Dur.add, resolveParams,
      AnimateParams.allParams, AnimateParams.isIntParam, applyResolved,
      resolveTo, resolveFrom, bagGet, dictGet, dictSet, List.dedup_nil,
      List.dedup_cons_of_not_mem, max_def,
      (show ("A" : String) ≠ "B" by decide),
      (show ("B" : String) ≠ "A" by decide),
      (show ("x" : String) ≠ "y" by decide)]

/-- Witness for C10: the `Loop` target equation, a non-matching
dispatch (an animation targeting `"B"` leaves child `"A"`'s bag
untouched), and a matching dispatch, all at concrete inputs. -/
theorem combinator_target_and_dispatch_witness :
    (mkLoop animTargetB none).target = "B" ∧
    applyMatchingAnims [(0, animTargetB)] "A" [] 0 =
      some ([(0, animTargetB)], []) ∧
    applyMatchingAnims [((0 : ℚ), animTargetB)] "B" [] 0 =
      (Anim.update animTargetB [] (max 0 (0 - 0))).map
        (fun r => ([(0, r.1)], r.2.1)) :=
  ⟨(combinator_target_and_dispatch.2.2.1 animTargetB none).trans rfl,
   combinator_target_and_dispatch.2.2.2.1 [(0, animTargetB)] "A" [] 0
     (by intro p hp; simp at hp; subst hp; simp [animTargetB, mkAnimate,
       Anim.target]),
   combinator_target_and_dispatch.2.2.2.2.1 0 animTargetB "B" [] 0 rfl⟩

end SceneComposer